import Mathlib

/-
Formal model of the Timecoin block-header tools:
`src/migrate_blocks.py` (legacy parser and V2 re-serializer) and
`src/inspect_db.py` (diagnostic varint-based decoder).

Byte buffers are modelled as `List Nat` (each entry one byte, `< 256`
in well-formed buffers).  Python's `struct.unpack` raises on a short
slice, which we model as `Option`; Python slicing `data[a:b]` clamps
to the end of the buffer, which `List.drop`/`List.take` reproduce
exactly, so readers built on bare slicing (`read_u128_le`,
`read_hash256`, payload reads) are total, exactly as in the source.
Python strings are modelled by their UTF-8 byte sequences; a decode
that would raise `UnicodeDecodeError` is modelled by a UTF-8 validity
check on the sliced bytes.
-/

/-- Python slice `data[pos:pos+n]` (clamping at the end of the buffer). -/
def bslice (data : List Nat) (pos n : Nat) : List Nat :=
  (data.drop pos).take n

/-- Little-endian value of a byte list, as in `int.from_bytes(bs, 'little')`
(defined for a slice of any length, as in the source). -/
def leVal : List Nat → Nat
  | [] => 0
  | b :: bs => b + 256 * leVal bs

/-- Little-endian encoding of `v` on `w` bytes, as produced by
`struct.pack` / `int.to_bytes` for an in-range value. -/
def leBytes : Nat → Nat → List Nat
  | 0, _ => []
  | w + 1, v => v % 256 :: leBytes w (v / 256)

/-- One UTF-8 continuation byte (0x80-0xBF). -/
def utf8ContOk (c : Nat) : Bool :=
  decide (0x80 ≤ c) && decide (c ≤ 0xBF)

/-- Validity of a byte sequence as UTF-8, the success condition of
Python's `bytes.decode('utf-8')` (rejecting overlong forms, surrogates
and code points above U+10FFFF). -/
def utf8Valid : List Nat → Bool
  | [] => true
  | b :: rest =>
    if b ≤ 0x7F then utf8Valid rest
    else if 0xC2 ≤ b ∧ b ≤ 0xDF then
      match rest with
      | c1 :: r => utf8ContOk c1 && utf8Valid r
      | [] => false
    else if b = 0xE0 then
      match rest with
      | c1 :: c2 :: r =>
        (decide (0xA0 ≤ c1) && decide (c1 ≤ 0xBF)) && utf8ContOk c2 && utf8Valid r
      | _ => false
    else if 0xE1 ≤ b ∧ b ≤ 0xEC then
      match rest with
      | c1 :: c2 :: r => utf8ContOk c1 && utf8ContOk c2 && utf8Valid r
      | _ => false
    else if b = 0xED then
      match rest with
      | c1 :: c2 :: r =>
        (decide (0x80 ≤ c1) && decide (c1 ≤ 0x9F)) && utf8ContOk c2 && utf8Valid r
      | _ => false
    else if 0xEE ≤ b ∧ b ≤ 0xEF then
      match rest with
      | c1 :: c2 :: r => utf8ContOk c1 && utf8ContOk c2 && utf8Valid r
      | _ => false
    else if b = 0xF0 then
      match rest with
      | c1 :: c2 :: c3 :: r =>
        (decide (0x90 ≤ c1) && decide (c1 ≤ 0xBF)) && utf8ContOk c2 && utf8ContOk c3 &&
          utf8Valid r
      | _ => false
    else if 0xF1 ≤ b ∧ b ≤ 0xF3 then
      match rest with
      | c1 :: c2 :: c3 :: r =>
        utf8ContOk c1 && utf8ContOk c2 && utf8ContOk c3 && utf8Valid r
      | _ => false
    else if b = 0xF4 then
      match rest with
      | c1 :: c2 :: c3 :: r =>
        (decide (0x80 ≤ c1) && decide (c1 ≤ 0x8F)) && utf8ContOk c2 && utf8ContOk c3 &&
          utf8Valid r
      | _ => false
    else false

/-
Field readers of `src/migrate_blocks.py`.  `struct.unpack('<I', ...)`
needs exactly 4 bytes, so `read_u32_le` fails (raises, modelled `none`)
iff `pos + 4 > len(data)`; likewise for the 8-byte readers.
`read_u128_le` and `read_hash256` use bare slicing with no length
check, so they never fail — a short slice silently yields a small
value / short hash, exactly as in the Python source.
-/

/-- Model of `read_u32_le` in `migrate_blocks.py`. -/
def read_u32_le (data : List Nat) (pos : Nat) : Option (Nat × Nat) :=
  if pos + 4 ≤ data.length then some (leVal (bslice data pos 4), pos + 4) else none

/-- Model of `read_u64_le` in `migrate_blocks.py`. -/
def read_u64_le (data : List Nat) (pos : Nat) : Option (Nat × Nat) :=
  if pos + 8 ≤ data.length then some (leVal (bslice data pos 8), pos + 8) else none

/-- Model of `read_i64_le` in `migrate_blocks.py` (`struct.unpack('<q', ...)`,
two's-complement signed). -/
def read_i64_le (data : List Nat) (pos : Nat) : Option (Int × Nat) :=
  if pos + 8 ≤ data.length then
    let u := leVal (bslice data pos 8)
    some (if u < 2 ^ 63 then (u : Int) else (u : Int) - 2 ^ 64, pos + 8)
  else none

/-- Model of `read_u128_le` in `migrate_blocks.py`: `int.from_bytes` of a
bare slice, total — no truncation check. -/
def read_u128_le (data : List Nat) (pos : Nat) : Nat × Nat :=
  (leVal (bslice data pos 16), pos + 16)

/-- Model of `read_hash256` in `migrate_blocks.py`: a bare 32-byte slice,
total — no truncation check, may return fewer than 32 bytes. -/
def read_hash256 (data : List Nat) (pos : Nat) : List Nat × Nat :=
  (bslice data pos 32, pos + 32)

/-- Model of `read_string` in `migrate_blocks.py`: fixed 8-byte LE length,
then a bare slice decoded as UTF-8 (failure of `.decode('utf-8')`
modelled by the validity check). -/
def read_string (data : List Nat) (pos : Nat) : Option (List Nat × Nat) :=
  match read_u64_le data pos with
  | none => none
  | some (length, p) =>
    let s := bslice data p length
    if utf8Valid s then some (s, p + length) else none

/-
Writers of `src/migrate_blocks.py`.
-/

/-- Model of `write_u32_le`. -/
def write_u32_le (v : Nat) : List Nat := leBytes 4 v

/-- Model of `write_u64_le`. -/
def write_u64_le (v : Nat) : List Nat := leBytes 8 v

/-- Model of `write_i64_le` (`struct.pack('<q', t)`, two's complement). -/
def write_i64_le (t : Int) : List Nat := leBytes 8 ((t % (2 ^ 64 : Int)).toNat)

/-- Model of `write_u128_le`. -/
def write_u128_le (v : Nat) : List Nat := leBytes 16 v

/-- Model of `write_hash256` (identity on the raw bytes). -/
def write_hash256 (v : List Nat) : List Nat := v

/-- Model of `write_string`: fixed 8-byte LE length then the UTF-8 bytes. -/
def write_string (s : List Nat) : List Nat := write_u64_le s.length ++ s

/-- Model of `write_vec_u8`: fixed 8-byte LE length then the bytes. -/
def write_vec_u8 (d : List Nat) : List Nat := write_u64_le d.length ++ d

/-- Model of `write_option_vec_u8`: the source writes a single `0x00` both
for `None` and for an empty vector, and `0x01` plus `write_vec_u8` only
for a nonempty vector. -/
def write_option_vec_u8 (d : Option (List Nat)) : List Nat :=
  match d with
  | none => [0]
  | some v => if v.length = 0 then [0] else 1 :: write_vec_u8 v

/-- Model of `write_option_bool`. -/
def write_option_bool (v : Option Bool) : List Nat :=
  match v with
  | none => [0]
  | some b => [1, if b then 1 else 0]

/-- The legacy `BlockHeaderV1` record returned by `parse_old_block_header`.
The `leader` field holds the UTF-8 bytes of the Python string. -/
structure BlockHeader where
  version : Nat
  height : Nat
  timestamp : Int
  previous_hash : List Nat
  merkle_root : List Nat
  leader : List Nat
  block_reward : Nat
  vrf_output : List Nat
  vrf_score : Nat
  attestation_root : List Nat
deriving DecidableEq

/-- Model of `parse_old_block_header` in `migrate_blocks.py`: the strict
linear sequence of field reads; a raised exception anywhere is `none`. -/
def parse_old_block_header (data : List Nat) (pos : Nat) :
    Option (BlockHeader × Nat) :=
  match read_u32_le data pos with
  | none => none
  | some (version, p1) =>
    match read_u64_le data p1 with
    | none => none
    | some (height, p2) =>
      match read_i64_le data p2 with
      | none => none
      | some (timestamp, p3) =>
        let (previous_hash, p4) := read_hash256 data p3
        let (merkle_root, p5) := read_hash256 data p4
        match read_string data p5 with
        | none => none
        | some (leader, p6) =>
          match read_u64_le data p6 with
          | none => none
          | some (block_reward, p7) =>
            let (vrf_output, p8) := read_hash256 data p7
            let (vrf_score, p9) := read_u128_le data p8
            let (attestation_root, p10) := read_hash256 data p9
            some (⟨version, height, timestamp, previous_hash, merkle_root,
                   leader, block_reward, vrf_output, vrf_score,
                   attestation_root⟩, p10)

/-- Model of `serialize_new_block_header` in `migrate_blocks.py`: the ten
V1 fields in order, then the four zero tier counts, two empty byte
vectors, and the absent `Option<bool>` tag. -/
def serialize_new_block_header (h : BlockHeader) : List Nat :=
  write_u32_le h.version ++ write_u64_le h.height ++ write_i64_le h.timestamp ++
    write_hash256 h.previous_hash ++ write_hash256 h.merkle_root ++
    write_string h.leader ++ write_u64_le h.block_reward ++
    write_hash256 h.vrf_output ++ write_u128_le h.vrf_score ++
    write_hash256 h.attestation_root ++
    write_u32_le 0 ++ write_u32_le 0 ++ write_u32_le 0 ++ write_u32_le 0 ++
    write_vec_u8 [] ++ write_vec_u8 [] ++ write_option_bool none

/-
The diagnostic decoder of `src/inspect_db.py`.
-/

/-- Model of `read_varint` in `inspect_db.py`.  Returns the pair the
Python function returns: `(None, offset)` on failure (offset unchanged),
or `(value, new_offset)` on success. -/
def read_varint (data : List Nat) (offset : Nat) : Option Nat × Nat :=
  if offset ≥ data.length then (none, offset)
  else
    let first_byte := data.getD offset 0
    if first_byte < 251 then (some first_byte, offset + 1)
    else if first_byte = 251 then
      if offset + 2 ≥ data.length then (none, offset)
      else (some (leVal (bslice data (offset + 1) 2)), offset + 3)
    else if first_byte = 252 then
      if offset + 4 ≥ data.length then (none, offset)
      else (some (leVal (bslice data (offset + 1) 4)), offset + 5)
    else if first_byte = 253 then
      if offset + 8 ≥ data.length then (none, offset)
      else (some (leVal (bslice data (offset + 1) 8)), offset + 9)
    else (none, offset)

/-- Outcome of the trailing `Option<Vec<u8>>` handling at the end of
`decode_block_header` in `inspect_db.py`. -/
inductive TrailInfo where
  /-- No bytes remain after the fixed fields. -/
  | noneLeft : TrailInfo
  /-- Tag byte `0`: reported as `None`, no further bytes consumed. -/
  | tagAbsent : TrailInfo
  /-- Tag byte `1`: a varint length is read and reported; the payload
  bytes themselves are not consumed by the source. -/
  | tagPresent (length : Option Nat) : TrailInfo
  /-- Any other tag byte: silently accepted, decode still succeeds. -/
  | tagOther (tag : Nat) : TrailInfo
deriving DecidableEq

/-- Model of the trailing-bytes handling in `decode_block_header`
(`inspect_db.py` lines 221-235): it inspects one tag byte if any bytes
remain and never fails. -/
def readTrailing (data : List Nat) (pos : Nat) : TrailInfo :=
  if pos < data.length then
    let tag := data.getD pos 0
    if tag = 1 then TrailInfo.tagPresent (read_varint data (pos + 1)).1
    else if tag = 0 then TrailInfo.tagAbsent
    else TrailInfo.tagOther tag
  else TrailInfo.noneLeft

/-- The record of values computed (and printed) by a successful run of
`decode_block_header` in `inspect_db.py`.  `leader` holds the raw bytes
(the source decodes them with `errors='replace'`, which never fails). -/
structure DiagHeader where
  version : Nat
  height : Nat
  timestamp : Int
  previous_hash : List Nat
  merkle_root : List Nat
  leader : List Nat
  block_reward : Nat
  vrf_output : List Nat
  vrf_score : Nat
  attestation_root : List Nat
  trailing : TrailInfo
deriving DecidableEq

/-- Model of `decode_block_header` in `inspect_db.py`: explicit length
checks before each fixed-width field, the leader length via
`read_varint`, and the tolerant trailing-tag handling.  The Python
function communicates its result by printing; the model returns the
values it computes, `none` on any of its early error returns. -/
def decode_block_header (data : List Nat) (offset : Nat) : Option DiagHeader :=
  if offset + 4 > data.length then none else
  let version := leVal (bslice data offset 4)
  let p1 := offset + 4
  if p1 + 8 > data.length then none else
  let height := leVal (bslice data p1 8)
  let p2 := p1 + 8
  if p2 + 8 > data.length then none else
  let u := leVal (bslice data p2 8)
  let timestamp : Int := if u < 2 ^ 63 then (u : Int) else (u : Int) - 2 ^ 64
  let p3 := p2 + 8
  if p3 + 32 > data.length then none else
  let previous_hash := bslice data p3 32
  let p4 := p3 + 32
  if p4 + 32 > data.length then none else
  let merkle_root := bslice data p4 32
  let p5 := p4 + 32
  match read_varint data p5 with
  | (none, _) => none
  | (some leader_len, p6) =>
    if p6 + leader_len > data.length then none else
    let leader := bslice data p6 leader_len
    let p7 := p6 + leader_len
    if p7 + 8 > data.length then none else
    let block_reward := leVal (bslice data p7 8)
    let p8 := p7 + 8
    if p8 + 32 > data.length then none else
    let vrf_output := bslice data p8 32
    let p9 := p8 + 32
    if p9 + 16 > data.length then none else
    let vrf_score := leVal (bslice data p9 16)
    let p10 := p9 + 16
    if p10 + 32 > data.length then none else
    let attestation_root := bslice data p10 32
    let p11 := p10 + 32
    some ⟨version, height, timestamp, previous_hash, merkle_root, leader,
          block_reward, vrf_output, vrf_score, attestation_root,
          readTrailing data p11⟩

/-
The command dispatch of `migrate_blocks.py`'s `__main__` block.
-/

/-- The actions the `__main__` block of `migrate_blocks.py` can take,
one constructor per control-flow branch. -/
inductive MainAction where
  /-- Fewer than two arguments: print usage, `sys.exit(1)`. -/
  | usageExit : MainAction
  /-- `inspect` without a block number: error message plus usage, `sys.exit(1)`. -/
  | missingBlockNumExit : MainAction
  /-- `inspect <n>`: open the database and probe offsets for block `n`. -/
  | inspectBlock (dbPath blockNum : String) : MainAction
  /-- `migrate`: print `Migration not yet implemented` and
  `Use the Rust-based migration tool instead`, then `sys.exit(1)` —
  no store read, decode, encode or write happens. -/
  | migrateStub : MainAction
  /-- Any other command: error message plus usage, `sys.exit(1)`. -/
  | unknownCommandExit (cmd : String) : MainAction
deriving DecidableEq

/-- Whether a `__main__` action touches the database at all (only the
inspect path opens and reads the store). -/
def accessesStore : MainAction → Bool
  | MainAction.inspectBlock _ _ => true
  | _ => false

/-- Model of the `__main__` dispatch of `migrate_blocks.py` on `sys.argv`
(element 0 is the script name). -/
def mainDispatch (argv : List String) : MainAction :=
  if argv.length < 3 then MainAction.usageExit
  else
    let command := argv.getD 2 ""
    if command = "inspect" then
      if argv.length < 4 then MainAction.missingBlockNumExit
      else MainAction.inspectBlock (argv.getD 1 "") (argv.getD 3 "")
    else if command = "migrate" then MainAction.migrateStub
    else MainAction.unknownCommandExit command

/-
Concrete inputs used by individual claims.
-/

/-- A valid 180-byte V1 encoding: `version=1, height=42, timestamp=0`,
all-zero previous hash, `0x11`-filled merkle root, empty leader,
`block_reward=1000`, `0x22`-filled vrf output, `vrf_score=5`,
`0x33`-filled attestation root. -/
def truncDemoFull : List Nat :=
  write_u32_le 1 ++ write_u64_le 42 ++ write_i64_le 0 ++
    List.replicate 32 0 ++ List.replicate 32 17 ++ write_string [] ++
    write_u64_le 1000 ++ List.replicate 32 34 ++ write_u128_le 5 ++
    List.replicate 32 51

/-- `truncDemoFull` truncated at the field boundary after `vrf_output`
(first 132 bytes), dropping `vrf_score` and `attestation_root`. -/
def truncDemoCut : List Nat := truncDemoFull.take 132

/-- A buffer on which the two leader-length interpretations diverge: 84
zero bytes of fixed fields, then `01 00 00 00 00 00 00 00`, then `0x41`
(`'A'`), then 88 zero bytes. -/
def leaderDemoBuf : List Nat :=
  List.replicate 84 0 ++ [1, 0, 0, 0, 0, 0, 0, 0] ++ [65] ++ List.replicate 88 0

/-- A 174-byte buffer whose fixed fields are all zero (leader length read
as the varint `0`) followed by the trailing tag byte `2`. -/
def tagDemoBuf : List Nat := List.replicate 173 0 ++ [2]

/-- The end-to-end header of spec §8 (`leader = "node-A"` as UTF-8 bytes). -/
def e2eHeader : BlockHeader :=
  ⟨1, 42, 1700000000, List.replicate 32 0, List.replicate 32 17,
   [110, 111, 100, 101, 45, 65], 1000, List.replicate 32 34,
   123456789012345678901234567890, List.replicate 32 51⟩

/-- A concrete header used to instantiate the determinism theorem. -/
def detHeader : BlockHeader :=
  ⟨2, 7, -5, List.replicate 32 9, List.replicate 32 8, [120], 50,
   List.replicate 32 7, 77, List.replicate 32 6⟩

/-- The encodings of the ten V1 fields, in source order — the prefix of
`serialize_new_block_header`'s output before the appended V2 defaults. -/
def v1FieldBytes (h : BlockHeader) : List Nat :=
  write_u32_le h.version ++ (write_u64_le h.height ++ (write_i64_le h.timestamp ++
    (write_hash256 h.previous_hash ++ (write_hash256 h.merkle_root ++
    (write_string h.leader ++ (write_u64_le h.block_reward ++
    (write_hash256 h.vrf_output ++ (write_u128_le h.vrf_score ++
    write_hash256 h.attestation_root))))))))

/-- The bytes `serialize_new_block_header` appends after the V1 fields:
four zero `u32` tier counts, two empty byte vectors, one absent tag. -/
def v2TailBytes : List Nat :=
  write_u32_le 0 ++ (write_u32_le 0 ++ (write_u32_le 0 ++ (write_u32_le 0 ++
    (write_vec_u8 [] ++ (write_vec_u8 [] ++ write_option_bool none)))))

/-
Helper lemmas about the little-endian codec and slicing.
-/

@[simp] theorem leBytes_length : ∀ (w v : Nat), (leBytes w v).length = w
  | 0, _ => rfl
  | w + 1, v => by simp [leBytes, leBytes_length w]

theorem mod_mul_digit (v N : Nat) (hN : 0 < N) :
    v % (256 * N) = v % 256 + 256 * (v / 256 % N) := by
  have hq : v / 256 = N * (v / 256 / N) + v / 256 % N := (Nat.div_add_mod _ _).symm
  have hv : v = 256 * N * (v / 256 / N) + (256 * (v / 256 % N) + v % 256) := by
    calc v = 256 * (v / 256) + v % 256 := (Nat.div_add_mod _ _).symm
    _ = 256 * (N * (v / 256 / N) + v / 256 % N) + v % 256 := by rw [← hq]
    _ = 256 * N * (v / 256 / N) + (256 * (v / 256 % N) + v % 256) := by ring
  have hrlt : v % 256 < 256 := Nat.mod_lt _ (by norm_num)
  have hqlt : v / 256 % N < N := Nat.mod_lt _ hN
  calc v % (256 * N)
      = (256 * (v / 256 % N) + v % 256 + 256 * N * (v / 256 / N)) % (256 * N) := by
        conv_lhs => rw [hv]
        congr 1
        ring
    _ = (256 * (v / 256 % N) + v % 256) % (256 * N) := Nat.add_mul_mod_self_left _ _ _
    _ = 256 * (v / 256 % N) + v % 256 := Nat.mod_eq_of_lt (by omega)
    _ = v % 256 + 256 * (v / 256 % N) := by ring

theorem leVal_leBytes : ∀ (w v : Nat), leVal (leBytes w v) = v % 256 ^ w
  | 0, v => by simp [leBytes, leVal, Nat.mod_one]
  | w + 1, v => by
    have ih := leVal_leBytes w (v / 256)
    simp only [leBytes, leVal, ih]
    rw [pow_succ']
    exact (mod_mul_digit v (256 ^ w) (pow_pos (by norm_num) w)).symm

theorem leVal_leBytes_of_lt (w v : Nat) (h : v < 256 ^ w) :
    leVal (leBytes w v) = v := by
  rw [leVal_leBytes]; exact Nat.mod_eq_of_lt h

theorem bslice_append (pre mid rest : List Nat) (n : Nat) (hn : mid.length = n) :
    bslice (pre ++ (mid ++ rest)) pre.length n = mid := by
  subst hn
  unfold bslice
  rw [List.drop_left, List.take_left]

@[simp] theorem write_u32_le_length (v : Nat) : (write_u32_le v).length = 4 :=
  leBytes_length 4 v

@[simp] theorem write_u64_le_length (v : Nat) : (write_u64_le v).length = 8 :=
  leBytes_length 8 v

@[simp] theorem write_i64_le_length (t : Int) : (write_i64_le t).length = 8 :=
  leBytes_length 8 _

@[simp] theorem write_u128_le_length (v : Nat) : (write_u128_le v).length = 16 :=
  leBytes_length 16 v

@[simp] theorem write_string_length (s : List Nat) :
    (write_string s).length = 8 + s.length := by
  simp [write_string]

/-
Step lemmas: each field reader, applied at the start of its own
encoding inside a larger buffer, returns the encoded value and advances
past it.
-/

theorem read_u32_le_at (data pre rest : List Nat) (v pos pos' : Nat)
    (hd : data = pre ++ (write_u32_le v ++ rest)) (hp : pos = pre.length)
    (hp' : pos' = pos + 4) (hv : v < 2 ^ 32) :
    read_u32_le data pos = some (v, pos') := by
  subst hd hp hp'
  have hcond : pre.length + 4 ≤ (pre ++ (write_u32_le v ++ rest)).length := by
    simp [List.length_append]
  have hval : leVal (write_u32_le v) = v :=
    leVal_leBytes_of_lt 4 v (by norm_num at hv ⊢; omega)
  simp only [read_u32_le, if_pos hcond,
    bslice_append pre _ rest 4 (write_u32_le_length v), hval]

theorem read_u64_le_at (data pre rest : List Nat) (v pos pos' : Nat)
    (hd : data = pre ++ (write_u64_le v ++ rest)) (hp : pos = pre.length)
    (hp' : pos' = pos + 8) (hv : v < 2 ^ 64) :
    read_u64_le data pos = some (v, pos') := by
  subst hd hp hp'
  have hcond : pre.length + 8 ≤ (pre ++ (write_u64_le v ++ rest)).length := by
    simp [List.length_append]
  have hval : leVal (write_u64_le v) = v :=
    leVal_leBytes_of_lt 8 v (by norm_num at hv ⊢; omega)
  simp only [read_u64_le, if_pos hcond,
    bslice_append pre _ rest 8 (write_u64_le_length v), hval]

theorem read_i64_le_at (data pre rest : List Nat) (t : Int) (pos pos' : Nat)
    (hd : data = pre ++ (write_i64_le t ++ rest)) (hp : pos = pre.length)
    (hp' : pos' = pos + 8) (h1 : -(2 ^ 63) ≤ t) (h2 : t < 2 ^ 63) :
    read_i64_le data pos = some (t, pos') := by
  subst hd hp hp'
  have hcond : pre.length + 8 ≤ (pre ++ (write_i64_le t ++ rest)).length := by
    simp [List.length_append]
  have hmod : (0 : Int) ≤ t % (2 ^ 64 : Int) ∧ t % (2 ^ 64 : Int) < 2 ^ 64 := by omega
  have htn : ((t % (2 ^ 64 : Int)).toNat : Int) = t % (2 ^ 64 : Int) :=
    Int.toNat_of_nonneg hmod.1
  have hval : leVal (write_i64_le t) = (t % (2 ^ 64 : Int)).toNat := by
    apply leVal_leBytes_of_lt
    have : ((t % (2 ^ 64 : Int)).toNat : Int) < 2 ^ 64 := by rw [htn]; exact hmod.2
    norm_num at this ⊢; omega
  simp only [read_i64_le, if_pos hcond,
    bslice_append pre _ rest 8 (write_i64_le_length t), hval]
  congr 1
  rw [Prod.mk.injEq]
  refine ⟨?_, rfl⟩
  split
  · rename_i hlt
    have : ((t % (2 ^ 64 : Int)).toNat : Int) < 2 ^ 63 := by exact_mod_cast hlt
    omega
  · rename_i hlt
    have : ¬ ((t % (2 ^ 64 : Int)).toNat : Int) < 2 ^ 63 := by exact_mod_cast hlt
    omega

theorem read_hash256_at (data pre hsh rest : List Nat) (pos pos' : Nat)
    (hd : data = pre ++ (hsh ++ rest)) (hp : pos = pre.length)
    (hp' : pos' = pos + 32) (hh : hsh.length = 32) :
    read_hash256 data pos = (hsh, pos') := by
  subst hd hp hp'
  simp only [read_hash256, bslice_append pre hsh rest 32 hh]

theorem read_u128_le_at (data pre rest : List Nat) (v pos pos' : Nat)
    (hd : data = pre ++ (write_u128_le v ++ rest)) (hp : pos = pre.length)
    (hp' : pos' = pos + 16) (hv : v < 2 ^ 128) :
    read_u128_le data pos = (v, pos') := by
  subst hd hp hp'
  have hval : leVal (write_u128_le v) = v :=
    leVal_leBytes_of_lt 16 v (by norm_num at hv ⊢; omega)
  simp only [read_u128_le, bslice_append pre _ rest 16 (write_u128_le_length v), hval]

theorem read_string_at (data pre rest s : List Nat) (pos pos' : Nat)
    (hd : data = pre ++ (write_string s ++ rest)) (hp : pos = pre.length)
    (hp' : pos' = pos + 8 + s.length) (hs : utf8Valid s = true)
    (hL : s.length < 2 ^ 64) :
    read_string data pos = some (s, pos') := by
  subst hd hp hp'
  have h64 : read_u64_le (pre ++ (write_string s ++ rest)) pre.length =
      some (s.length, pre.length + 8) := by
    apply read_u64_le_at _ pre (s ++ rest) _ _ _ _ rfl rfl hL
    simp [write_string, List.append_assoc]
  have hsl : bslice (pre ++ (write_string s ++ rest)) (pre.length + 8) s.length = s := by
    have hd2 : pre ++ (write_string s ++ rest) =
        (pre ++ write_u64_le s.length) ++ (s ++ rest) := by
      simp [write_string, List.append_assoc]
    have hl2 : (pre ++ write_u64_le s.length).length = pre.length + 8 := by
      simp [List.length_append]
    rw [hd2, ← hl2]
    exact bslice_append _ s rest s.length rfl
  simp only [read_string, h64, hsl, hs, if_pos]

/-
Claim theorems.
-/

/-- Claim C7: migration preserves every V1 field — for every header whose
integer fields are in range for their widths, whose hash fields are
exactly 32 bytes and whose leader is a valid UTF-8 string, running
`parse_old_block_header` from position 0 on the output of
`serialize_new_block_header` succeeds and returns the same ten V1
fields (consuming exactly the V1 portion of the buffer). -/
theorem migration_preserves_v1_fields (h : BlockHeader)
    (hv : h.version < 2 ^ 32) (hh : h.height < 2 ^ 64)
    (ht1 : -(2 ^ 63) ≤ h.timestamp) (ht2 : h.timestamp < 2 ^ 63)
    (hph : h.previous_hash.length = 32) (hmr : h.merkle_root.length = 32)
    (hld : utf8Valid h.leader = true) (hll : h.leader.length < 2 ^ 64)
    (hbr : h.block_reward < 2 ^ 64) (hvo : h.vrf_output.length = 32)
    (hvs : h.vrf_score < 2 ^ 128) (har : h.attestation_root.length = 32) :
    parse_old_block_header (serialize_new_block_header h) 0 =
      some (h, 180 + h.leader.length) := by
  have e : serialize_new_block_header h =
      write_u32_le h.version ++ (write_u64_le h.height ++ (write_i64_le h.timestamp ++
        (h.previous_hash ++ (h.merkle_root ++ (write_string h.leader ++
        (write_u64_le h.block_reward ++ (h.vrf_output ++ (write_u128_le h.vrf_score ++
        (h.attestation_root ++ v2TailBytes))))))))) := by
    simp only [serialize_new_block_header, v2TailBytes, write_hash256, List.append_assoc]
  have s1 : read_u32_le (serialize_new_block_header h) 0 = some (h.version, 4) :=
    read_u32_le_at _ []
      (write_u64_le h.height ++ (write_i64_le h.timestamp ++
        (h.previous_hash ++ (h.merkle_root ++ (write_string h.leader ++
        (write_u64_le h.block_reward ++ (h.vrf_output ++ (write_u128_le h.vrf_score ++
        (h.attestation_root ++ v2TailBytes)))))))))
      h.version 0 4
      (by rw [e]; try simp only [List.append_assoc, List.nil_append])
      rfl (by omega) hv
  have s2 : read_u64_le (serialize_new_block_header h) 4 = some (h.height, 12) :=
    read_u64_le_at _ (write_u32_le h.version)
      (write_i64_le h.timestamp ++
        (h.previous_hash ++ (h.merkle_root ++ (write_string h.leader ++
        (write_u64_le h.block_reward ++ (h.vrf_output ++ (write_u128_le h.vrf_score ++
        (h.attestation_root ++ v2TailBytes))))))))
      h.height 4 12
      (by rw [e]; try simp only [List.append_assoc, List.nil_append])
      (by simp only [write_u32_le_length]) (by omega) hh
  have s3 : read_i64_le (serialize_new_block_header h) 12 = some (h.timestamp, 20) :=
    read_i64_le_at _ (write_u32_le h.version ++ write_u64_le h.height)
      (h.previous_hash ++ (h.merkle_root ++ (write_string h.leader ++
        (write_u64_le h.block_reward ++ (h.vrf_output ++ (write_u128_le h.vrf_score ++
        (h.attestation_root ++ v2TailBytes)))))))
      h.timestamp 12 20
      (by rw [e]; try simp only [List.append_assoc, List.nil_append])
      (by simp only [List.length_append, write_u32_le_length, write_u64_le_length])
      (by omega) ht1 ht2
  have s4 : read_hash256 (serialize_new_block_header h) 20 = (h.previous_hash, 52) :=
    read_hash256_at _
      (write_u32_le h.version ++ (write_u64_le h.height ++ write_i64_le h.timestamp))
      h.previous_hash
      (h.merkle_root ++ (write_string h.leader ++
        (write_u64_le h.block_reward ++ (h.vrf_output ++ (write_u128_le h.vrf_score ++
        (h.attestation_root ++ v2TailBytes))))))
      20 52
      (by rw [e]; try simp only [List.append_assoc, List.nil_append])
      (by simp only [List.length_append, write_u32_le_length, write_u64_le_length,
            write_i64_le_length])
      (by omega) hph
  have s5 : read_hash256 (serialize_new_block_header h) 52 = (h.merkle_root, 84) :=
    read_hash256_at _
      (write_u32_le h.version ++ (write_u64_le h.height ++ (write_i64_le h.timestamp ++
        h.previous_hash)))
      h.merkle_root
      (write_string h.leader ++
        (write_u64_le h.block_reward ++ (h.vrf_output ++ (write_u128_le h.vrf_score ++
        (h.attestation_root ++ v2TailBytes)))))
      52 84
      (by rw [e]; try simp only [List.append_assoc, List.nil_append])
      (by simp only [List.length_append, write_u32_le_length, write_u64_le_length,
            write_i64_le_length]; omega)
      (by omega) hmr
  have s6 : read_string (serialize_new_block_header h) 84 =
      some (h.leader, 92 + h.leader.length) :=
    read_string_at _
      (write_u32_le h.version ++ (write_u64_le h.height ++ (write_i64_le h.timestamp ++
        (h.previous_hash ++ h.merkle_root))))
      (write_u64_le h.block_reward ++ (h.vrf_output ++ (write_u128_le h.vrf_score ++
        (h.attestation_root ++ v2TailBytes))))
      h.leader 84 (92 + h.leader.length)
      (by rw [e]; try simp only [List.append_assoc, List.nil_append])
      (by simp only [List.length_append, write_u32_le_length, write_u64_le_length,
            write_i64_le_length]; omega)
      (by omega) hld hll
  have s7 : read_u64_le (serialize_new_block_header h) (92 + h.leader.length) =
      some (h.block_reward, 100 + h.leader.length) :=
    read_u64_le_at _
      (write_u32_le h.version ++ (write_u64_le h.height ++ (write_i64_le h.timestamp ++
        (h.previous_hash ++ (h.merkle_root ++ write_string h.leader)))))
      (h.vrf_output ++ (write_u128_le h.vrf_score ++
        (h.attestation_root ++ v2TailBytes)))
      h.block_reward (92 + h.leader.length) (100 + h.leader.length)
      (by rw [e]; try simp only [List.append_assoc, List.nil_append])
      (by simp only [List.length_append, write_u32_le_length, write_u64_le_length,
            write_i64_le_length, write_string_length]; omega)
      (by omega) hbr
  have s8 : read_hash256 (serialize_new_block_header h) (100 + h.leader.length) =
      (h.vrf_output, 132 + h.leader.length) :=
    read_hash256_at _
      (write_u32_le h.version ++ (write_u64_le h.height ++ (write_i64_le h.timestamp ++
        (h.previous_hash ++ (h.merkle_root ++ (write_string h.leader ++
        write_u64_le h.block_reward))))))
      h.vrf_output
      (write_u128_le h.vrf_score ++ (h.attestation_root ++ v2TailBytes))
      (100 + h.leader.length) (132 + h.leader.length)
      (by rw [e]; try simp only [List.append_assoc, List.nil_append])
      (by simp only [List.length_append, write_u32_le_length, write_u64_le_length,
            write_i64_le_length, write_string_length]; omega)
      (by omega) hvo
  have s9 : read_u128_le (serialize_new_block_header h) (132 + h.leader.length) =
      (h.vrf_score, 148 + h.leader.length) :=
    read_u128_le_at _
      (write_u32_le h.version ++ (write_u64_le h.height ++ (write_i64_le h.timestamp ++
        (h.previous_hash ++ (h.merkle_root ++ (write_string h.leader ++
        (write_u64_le h.block_reward ++ h.vrf_output)))))))
      (h.attestation_root ++ v2TailBytes)
      h.vrf_score (132 + h.leader.length) (148 + h.leader.length)
      (by rw [e]; try simp only [List.append_assoc, List.nil_append])
      (by simp only [List.length_append, write_u32_le_length, write_u64_le_length,
            write_i64_le_length, write_string_length]; omega)
      (by omega) hvs
  have s10 : read_hash256 (serialize_new_block_header h) (148 + h.leader.length) =
      (h.attestation_root, 180 + h.leader.length) :=
    read_hash256_at _
      (write_u32_le h.version ++ (write_u64_le h.height ++ (write_i64_le h.timestamp ++
        (h.previous_hash ++ (h.merkle_root ++ (write_string h.leader ++
        (write_u64_le h.block_reward ++ (h.vrf_output ++ write_u128_le h.vrf_score))))))))
      h.attestation_root v2TailBytes
      (148 + h.leader.length) (180 + h.leader.length)
      (by rw [e]; try simp only [List.append_assoc, List.nil_append])
      (by simp only [List.length_append, write_u32_le_length, write_u64_le_length,
            write_i64_le_length, write_string_length, write_u128_le_length]; omega)
      (by omega) har
  simp only [parse_old_block_header, s1, s2, s3, s4, s5, s6, s7, s8, s9, s10]

/-- Witness for C7: the end-to-end header of spec §8 round-trips through
`serialize_new_block_header` and `parse_old_block_header`. -/
theorem migration_preserves_v1_fields_witness :
    parse_old_block_header (serialize_new_block_header e2eHeader) 0 =
      some (e2eHeader, 180 + e2eHeader.leader.length) :=
  migration_preserves_v1_fields e2eHeader (by decide) (by decide) (by decide)
    (by decide) (by decide) (by decide) (by decide) (by decide) (by decide)
    (by decide) (by decide) (by decide)

/-- Claim C8: the V2 encoder is deterministic — its output depends only
on the header's field values, so any two runs on equal input headers
produce identical byte sequences. -/
theorem serialize_deterministic (h1 h2 : BlockHeader) (heq : h1 = h2) :
    serialize_new_block_header h1 = serialize_new_block_header h2 := by
  rw [heq]

/-- Witness for C8 at a concrete header. -/
theorem serialize_deterministic_witness :
    serialize_new_block_header detHeader = serialize_new_block_header detHeader :=
  serialize_deterministic detHeader detHeader rfl

set_option maxRecDepth 100000 in
/-- Claim C1 (code bug): `truncDemoFull` is a valid 180-byte V1 encoding
(it parses fully, consuming exactly its 180 bytes), yet parsing its
132-byte truncation at the field boundary after `vrf_output` does NOT
fail: `read_u128_le` and `read_hash256` never check the remaining
length, so the parse silently succeeds with `vrf_score = 0` (was 5), an
empty `attestation_root`, and a claimed end position 180 past the end
of the 132-byte buffer. -/
theorem truncation_not_detected :
    parse_old_block_header truncDemoFull 0 =
      some (⟨1, 42, 0, List.replicate 32 0, List.replicate 32 17, [], 1000,
             List.replicate 32 34, 5, List.replicate 32 51⟩, 180) ∧
    truncDemoCut.length = 132 ∧
    parse_old_block_header truncDemoCut 0 =
      some (⟨1, 42, 0, List.replicate 32 0, List.replicate 32 17, [], 1000,
             List.replicate 32 34, 0, []⟩, 180) :=
  ⟨by decide, by decide, by decide⟩

set_option maxRecDepth 100000 in
/-- Claim C2: the two legacy parsers of the same wire format disagree —
on `leaderDemoBuf` the diagnostic decoder reads the leader length as a
varint and returns leader byte `[0]`, while the migration parser reads
it as a fixed 8-byte u64 and returns leader byte `[65]`; both succeed. -/
theorem legacy_parsers_disagree :
    (decode_block_header leaderDemoBuf 0).map DiagHeader.leader = some [0] ∧
    (parse_old_block_header leaderDemoBuf 0).map (fun r => r.1.leader) = some [65] :=
  ⟨by decide, by decide⟩

/-- Counterexample to claim C3: `write_vec_u8` writes a fixed 8-byte
length prefix, so an appended empty vector contributes eight `0x00`
bytes, not the single varint byte `0x00` the claim asserts. -/
theorem empty_vec_prefix_not_varint :
    write_vec_u8 [] = List.replicate 8 0 ∧ write_vec_u8 [] ≠ [0] :=
  ⟨by decide, by decide⟩

/-- Claim C3 amended: the length prefixes in `serialize_new_block_header`
output are fixed 8-byte little-endian u64 values (not varints), so each
appended empty vector contributes eight zero bytes, and the bytes
trailing the V1 fields are the four zero u32 tier counts, two 8-byte
zero length prefixes, and one absent-tag byte — 33 zero bytes in all. -/
theorem serialize_trailing_bytes (h : BlockHeader) :
    serialize_new_block_header h = v1FieldBytes h ++ List.replicate 33 0 := by
  have htail : v2TailBytes = List.replicate 33 0 := by decide
  have e : serialize_new_block_header h = v1FieldBytes h ++ v2TailBytes := by
    simp only [serialize_new_block_header, v1FieldBytes, v2TailBytes,
      List.append_assoc]
  rw [e, htail]

/-- Counterexample to claim C4: `write_option_vec_u8` applied to a
present empty vector produces the single byte `0x00` — identical to the
absent encoding and different from the claimed `0x01` + payload. -/
theorem option_vec_empty_collapses :
    write_option_vec_u8 (some []) = [0] ∧
    write_option_vec_u8 (some []) ≠ 1 :: write_vec_u8 [] ∧
    write_option_vec_u8 (some []) = write_option_vec_u8 none :=
  ⟨by decide, by decide, by decide⟩

/-- Claim C4 amended: `write_option_vec_u8` emits `0x01` plus the vector
encoding only for a present nonempty vector; both the absent value and
a present empty vector encode as the single byte `0x00`, so those two
cases are indistinguishable in the output. -/
theorem write_option_vec_u8_cases (v : List Nat) (hv : v ≠ []) :
    write_option_vec_u8 (some v) = 1 :: write_vec_u8 v ∧
    write_option_vec_u8 none = [0] ∧
    write_option_vec_u8 (some []) = [0] := by
  refine ⟨?_, rfl, rfl⟩
  cases v with
  | nil => exact absurd rfl hv
  | cons a t => simp [write_option_vec_u8]

/-- Witness for the amended C4 at a nonempty vector. -/
theorem write_option_vec_u8_cases_witness :
    write_option_vec_u8 (some [7]) = 1 :: write_vec_u8 [7] :=
  (write_option_vec_u8_cases [7] (by decide)).1

set_option maxRecDepth 100000 in
/-- Counterexample to claim C5: on `tagDemoBuf` the trailing tag byte is
`2`, yet `decode_block_header` succeeds (recording the unrecognized
tag) instead of failing with `InvalidTag`. -/
theorem invalid_tag_accepted :
    decode_block_header tagDemoBuf 0 =
      some ⟨0, 0, 0, List.replicate 32 0, List.replicate 32 0, [], 0,
            List.replicate 32 0, 0, List.replicate 32 0, TrailInfo.tagOther 2⟩ := by
  decide

/-- Claim C5 amended: in the diagnostic decoder's trailing
`Option<Vec<u8>>` handling, tag `0` yields absent with no further bytes
consumed, tag `1` yields present with the vector length read via varint
(the payload is not consumed), and every other tag byte is silently
accepted and recorded — never an `InvalidTag` failure. -/
theorem trailing_tag_dispatch (data : List Nat) (pos : Nat)
    (h : pos < data.length) :
    (data.getD pos 0 = 0 → readTrailing data pos = TrailInfo.tagAbsent) ∧
    (data.getD pos 0 = 1 →
      readTrailing data pos = TrailInfo.tagPresent (read_varint data (pos + 1)).1) ∧
    (data.getD pos 0 ≠ 0 → data.getD pos 0 ≠ 1 →
      readTrailing data pos = TrailInfo.tagOther (data.getD pos 0)) := by
  refine ⟨?_, ?_, ?_⟩
  · intro h0
    have hne1 : ¬ (data.getD pos 0 = 1) := by omega
    simp only [readTrailing]
    rw [if_pos h, if_neg hne1, if_pos h0]
  · intro h1
    simp only [readTrailing]
    rw [if_pos h, if_pos h1]
  · intro h0 h1
    simp only [readTrailing]
    rw [if_pos h, if_neg h1, if_neg h0]

/-- Witness for the amended C5: an unrecognized tag byte is recorded,
not rejected. -/
theorem trailing_tag_dispatch_witness :
    readTrailing [7] 0 = TrailInfo.tagOther 7 :=
  (trailing_tag_dispatch [7] 0 (by decide)).2.2 (by decide) (by decide)

/-- Claim C6: `read_varint` follows the tag dispatch exactly — a first
byte below 251 is its own value consuming 1 byte; tags 251, 252, 253
read the little-endian u16/u32/u64 of the following 2/4/8 bytes
consuming 3/5/9 bytes; and for these tags it fails (returns `none` with
the offset unchanged) exactly when the buffer holds fewer bytes after
the tag than the tag requires. -/
theorem read_varint_tag_dispatch (data : List Nat) (offset : Nat)
    (h : offset < data.length) :
    (data.getD offset 0 < 251 →
      read_varint data offset = (some (data.getD offset 0), offset + 1)) ∧
    (data.getD offset 0 = 251 →
      (offset + 3 ≤ data.length →
        read_varint data offset =
          (some (leVal (bslice data (offset + 1) 2)), offset + 3)) ∧
      (data.length < offset + 3 → read_varint data offset = (none, offset))) ∧
    (data.getD offset 0 = 252 →
      (offset + 5 ≤ data.length →
        read_varint data offset =
          (some (leVal (bslice data (offset + 1) 4)), offset + 5)) ∧
      (data.length < offset + 5 → read_varint data offset = (none, offset))) ∧
    (data.getD offset 0 = 253 →
      (offset + 9 ≤ data.length →
        read_varint data offset =
          (some (leVal (bslice data (offset + 1) 8)), offset + 9)) ∧
      (data.length < offset + 9 → read_varint data offset = (none, offset))) := by
  have hge : ¬ (offset ≥ data.length) := by omega
  refine ⟨?_, ?_, ?_, ?_⟩
  · intro hb
    simp only [read_varint]
    rw [if_neg hge, if_pos hb]
  · intro hb
    have hnlt : ¬ (data.getD offset 0 < 251) := by omega
    constructor
    · intro hle
      have hc : ¬ (offset + 2 ≥ data.length) := by omega
      simp only [read_varint]
      rw [if_neg hge, if_neg hnlt, if_pos hb, if_neg hc]
    · intro hlt
      have hc : offset + 2 ≥ data.length := by omega
      simp only [read_varint]
      rw [if_neg hge, if_neg hnlt, if_pos hb, if_pos hc]
  · intro hb
    have hnlt : ¬ (data.getD offset 0 < 251) := by omega
    have hne251 : ¬ (data.getD offset 0 = 251) := by omega
    constructor
    · intro hle
      have hc : ¬ (offset + 4 ≥ data.length) := by omega
      simp only [read_varint]
      rw [if_neg hge, if_neg hnlt, if_neg hne251, if_pos hb, if_neg hc]
    · intro hlt
      have hc : offset + 4 ≥ data.length := by omega
      simp only [read_varint]
      rw [if_neg hge, if_neg hnlt, if_neg hne251, if_pos hb, if_pos hc]
  · intro hb
    have hnlt : ¬ (data.getD offset 0 < 251) := by omega
    have hne251 : ¬ (data.getD offset 0 = 251) := by omega
    have hne252 : ¬ (data.getD offset 0 = 252) := by omega
    constructor
    · intro hle
      have hc : ¬ (offset + 8 ≥ data.length) := by omega
      simp only [read_varint]
      rw [if_neg hge, if_neg hnlt, if_neg hne251, if_neg hne252, if_pos hb, if_neg hc]
    · intro hlt
      have hc : offset + 8 ≥ data.length := by omega
      simp only [read_varint]
      rw [if_neg hge, if_neg hnlt, if_neg hne251, if_neg hne252, if_pos hb, if_pos hc]

/-- Witness for C6: tag 251 reads a little-endian u16 consuming 3 bytes. -/
theorem read_varint_tag_dispatch_witness :
    read_varint [251, 7, 1] 0 = (some (leVal (bslice [251, 7, 1] 1 2)), 3) :=
  ((read_varint_tag_dispatch [251, 7, 1] 0 (by decide)).2.1 (by decide)).1 (by decide)

/-- Counterexample to claim C9: invoking the migrate command over a range
does not run a migration driver — the `__main__` dispatch on `migrate`
yields the not-yet-implemented stub (error message plus `sys.exit(1)`)
and never touches the store, decodes, re-encodes, or builds a report. -/
theorem migrate_command_is_stub :
    mainDispatch ["migrate_blocks.py", "db_path", "migrate", "1", "50"] =
      MainAction.migrateStub ∧
    accessesStore
      (mainDispatch ["migrate_blocks.py", "db_path", "migrate", "1", "50"]) =
      false :=
  ⟨by decide, by decide⟩

/-- Claim C9 amended: for every invocation naming the `migrate` command,
the `__main__` dispatch of the tool yields the stub that prints
`Migration not yet implemented`, refers the user to the Rust-based
migration tool and exits with status 1; no record is read, decoded,
re-encoded or written, and no report is produced. -/
theorem migrate_dispatch_always_stub (prog db : String) (rest : List String) :
    mainDispatch (prog :: db :: "migrate" :: rest) = MainAction.migrateStub ∧
    accessesStore (mainDispatch (prog :: db :: "migrate" :: rest)) = false := by
  have hlen : ¬ ((prog :: db :: "migrate" :: rest).length < 3) := by
    simp only [List.length_cons]
    omega
  have hcmd : (prog :: db :: "migrate" :: rest).getD 2 "" = "migrate" := by
    simp [List.getD_cons_succ, List.getD_cons_zero]
  have hmain : mainDispatch (prog :: db :: "migrate" :: rest) =
      MainAction.migrateStub := by
    simp only [mainDispatch]
    rw [if_neg hlen, hcmd, if_neg (by decide), if_pos rfl]
  exact ⟨hmain, by rw [hmain]; rfl⟩

/-- Claim C10: `read_varint` fails without consuming input — it returns
`(none, original offset)` exactly when the offset is at or past the end
of the buffer, the first byte is one of the undefined tags 254 or 255,
or fewer bytes follow the tag than the tag requires; the model is a
total function, so no exception is possible. -/
theorem read_varint_fail_no_consume (data : List Nat) (offset : Nat)
    (hbytes : ∀ b ∈ data, b < 256) :
    ((read_varint data offset).1 = none →
      read_varint data offset = (none, offset)) ∧
    ((read_varint data offset).1 = none ↔
      (data.length ≤ offset ∨
       data.getD offset 0 = 254 ∨ data.getD offset 0 = 255 ∨
       (data.getD offset 0 = 251 ∧ data.length ≤ offset + 2) ∨
       (data.getD offset 0 = 252 ∧ data.length ≤ offset + 4) ∨
       (data.getD offset 0 = 253 ∧ data.length ≤ offset + 8))) := by
  by_cases hoff : data.length ≤ offset
  · have hge : offset ≥ data.length := hoff
    have hres : read_varint data offset = (none, offset) := by
      simp only [read_varint]
      rw [if_pos hge]
    rw [hres]
    exact ⟨fun _ => rfl, iff_of_true rfl (Or.inl hoff)⟩
  · have hlt : offset < data.length := by omega
    have hmem : data.getD offset 0 ∈ data := by
      rw [List.getD_eq_getElem data 0 hlt]
      exact List.getElem_mem hlt
    have hb256 : data.getD offset 0 < 256 := hbytes _ hmem
    have hge : ¬ (offset ≥ data.length) := by omega
    by_cases hb1 : data.getD offset 0 < 251
    · have hres : read_varint data offset =
          (some (data.getD offset 0), offset + 1) := by
        simp only [read_varint]
        rw [if_neg hge, if_pos hb1]
      rw [hres]
      exact ⟨fun hc => absurd hc (by simp), iff_of_false (by simp) (by omega)⟩
    · by_cases hb2 : data.getD offset 0 = 251
      · by_cases hc : offset + 2 ≥ data.length
        · have hres : read_varint data offset = (none, offset) := by
            simp only [read_varint]
            rw [if_neg hge, if_neg hb1, if_pos hb2, if_pos hc]
          rw [hres]
          exact ⟨fun _ => rfl, iff_of_true rfl (by omega)⟩
        · have hres : read_varint data offset =
              (some (leVal (bslice data (offset + 1) 2)), offset + 3) := by
            simp only [read_varint]
            rw [if_neg hge, if_neg hb1, if_pos hb2, if_neg hc]
          rw [hres]
          exact ⟨fun hcon => absurd hcon (by simp),
            iff_of_false (by simp) (by omega)⟩
      · by_cases hb3 : data.getD offset 0 = 252
        · by_cases hc : offset + 4 ≥ data.length
          · have hres : read_varint data offset = (none, offset) := by
              simp only [read_varint]
              rw [if_neg hge, if_neg hb1, if_neg hb2, if_pos hb3, if_pos hc]
            rw [hres]
            exact ⟨fun _ => rfl, iff_of_true rfl (by omega)⟩
          · have hres : read_varint data offset =
                (some (leVal (bslice data (offset + 1) 4)), offset + 5) := by
              simp only [read_varint]
              rw [if_neg hge, if_neg hb1, if_neg hb2, if_pos hb3, if_neg hc]
            rw [hres]
            exact ⟨fun hcon => absurd hcon (by simp),
              iff_of_false (by simp) (by omega)⟩
        · by_cases hb4 : data.getD offset 0 = 253
          · by_cases hc : offset + 8 ≥ data.length
            · have hres : read_varint data offset = (none, offset) := by
                simp only [read_varint]
                rw [if_neg hge, if_neg hb1, if_neg hb2, if_neg hb3, if_pos hb4,
                  if_pos hc]
              rw [hres]
              exact ⟨fun _ => rfl, iff_of_true rfl (by omega)⟩
            · have hres : read_varint data offset =
                  (some (leVal (bslice data (offset + 1) 8)), offset + 9) := by
                simp only [read_varint]
                rw [if_neg hge, if_neg hb1, if_neg hb2, if_neg hb3, if_pos hb4,
                  if_neg hc]
              rw [hres]
              exact ⟨fun hcon => absurd hcon (by simp),
                iff_of_false (by simp) (by omega)⟩
          · have hres : read_varint data offset = (none, offset) := by
              simp only [read_varint]
              rw [if_neg hge, if_neg hb1, if_neg hb2, if_neg hb3, if_neg hb4]
            rw [hres]
            exact ⟨fun _ => rfl, iff_of_true rfl (by omega)⟩

/-- Witness for C10: an undefined tag byte fails with the offset
unchanged. -/
theorem read_varint_fail_no_consume_witness :
    read_varint [254] 0 = (none, 0) :=
  (read_varint_fail_no_consume [254] 0 (by decide)).1 (by decide)
